import Mathlib

/-!
Verification development for the ipman repository: region geometry engine,
region store, and generated-tree renderer.

Coordinates are modelled as integers (`Int`); the source manipulates pointer
coordinates and rectangle fields with `+`, `-`, `Math.max`, `Math.min`,
`Math.abs` only, so integer arithmetic is a faithful shallow embedding for
the properties considered here.
-/

/-- `Bounds` from `src/domain` (`{x, y, width, height}`). -/
structure Bounds where
  x : Int
  y : Int
  width : Int
  height : Int
deriving DecidableEq, Repr

/-- `MIN_SIZE` from `src/components/canvas/RegionOverlay.tsx` (line 81). -/
def MIN_SIZE : Int := 50

/-- `MIN_SELECTION_SIZE` from `src/components/GridCanvas.tsx` (line 7). -/
def MIN_SELECTION_SIZE : Int := 50

/-- The eight resize handles of `RegionOverlay.tsx`
(`type ResizeHandle = 'n' | 's' | 'e' | 'w' | 'ne' | 'nw' | 'se' | 'sw'`). -/
inductive ResizeHandle where
  | n | s | e | w | ne | nw | se | sw
deriving DecidableEq, Repr

/-- `handle.includes('e')` for the eight handle strings. -/
def handleHasE : ResizeHandle → Bool
  | .e | .ne | .se => true
  | _ => false

/-- `handle.includes('w')` for the eight handle strings. -/
def handleHasW : ResizeHandle → Bool
  | .w | .nw | .sw => true
  | _ => false

/-- `handle.includes('s')` for the eight handle strings. -/
def handleHasS : ResizeHandle → Bool
  | .s | .se | .sw => true
  | _ => false

/-- `handle.includes('n')` for the eight handle strings. -/
def handleHasN : ResizeHandle → Bool
  | .n | .ne | .nw => true
  | _ => false

/-- The resize engine: the body of `handleMouseMove` in
`RegionOverlay.tsx` lines 225-256.  `newBounds` starts as a copy of
`startBounds`; each axis clause mutates it, always reading from
`startBounds`. -/
def handleMouseMove (handle : ResizeHandle) (startBounds : Bounds)
    (deltaX deltaY : Int) : Bounds :=
  let b1 :=
    if handleHasE handle then
      { startBounds with width := max MIN_SIZE (startBounds.width + deltaX) }
    else startBounds
  let b2 :=
    if handleHasW handle then
      let newWidth := max MIN_SIZE (startBounds.width - deltaX)
      let widthDiff := startBounds.width - newWidth
      { b1 with x := startBounds.x + widthDiff, width := newWidth }
    else b1
  let b3 :=
    if handleHasS handle then
      { b2 with height := max MIN_SIZE (startBounds.height + deltaY) }
    else b2
  let b4 :=
    if handleHasN handle then
      let newHeight := max MIN_SIZE (startBounds.height - deltaY)
      let heightDiff := startBounds.height - newHeight
      { b3 with y := startBounds.y + heightDiff, height := newHeight }
    else b3
  b4

/-- Selection rectangle computed in `GridCanvas.tsx` `handleMouseUp`
(lines 83-86): origin `(sx, sy)`, current pointer `(cx, cy)`. -/
def selectionRect (sx sy cx cy : Int) : Bounds :=
  { x := min sx cx
    y := min sy cy
    width := |cx - sx|
    height := |cy - sy| }

/-- `handleMouseUp` in `GridCanvas.tsx` lines 80-93: the selection is
committed (passed to `onSelectionComplete`) only when both dimensions meet
`MIN_SELECTION_SIZE`; otherwise no region is produced. -/
def handleMouseUp (sx sy cx cy : Int) : Option Bounds :=
  let b := selectionRect sx sy cx cy
  if MIN_SELECTION_SIZE ≤ b.width ∧ MIN_SELECTION_SIZE ≤ b.height then
    some b
  else
    none

/-- A value of an entry in a `GeneratedComponent`'s `props` record.  The
source declares `props?: Record<string, unknown>` but documents and emits
only string, number, and boolean values. -/
inductive PropValue where
  | str (s : String)
  | num (n : Int)
  | bool (b : Bool)
deriving DecidableEq, Repr

/-- `GeneratedComponent` from `src/domain/entities`: a recursive tree node
`{element, className?, props?, content?, children?}`. -/
inductive GeneratedComponent where
  | mk (element : String) (className : Option String)
       (props : List (String × PropValue)) (content : Option String)
       (children : List GeneratedComponent)
deriving Repr

def GeneratedComponent.element : GeneratedComponent → String
  | ⟨e, _, _, _, _⟩ => e

def GeneratedComponent.className : GeneratedComponent → Option String
  | ⟨_, c, _, _, _⟩ => c

def GeneratedComponent.props : GeneratedComponent → List (String × PropValue)
  | ⟨_, _, p, _, _⟩ => p

def GeneratedComponent.content : GeneratedComponent → Option String
  | ⟨_, _, _, c, _⟩ => c

def GeneratedComponent.children : GeneratedComponent → List GeneratedComponent
  | ⟨_, _, _, _, c⟩ => c

/-- `VOID_ELEMENTS` from the renderer (`DynamicComponent` file, lines 9-12):
self-closing HTML elements that do not accept children. -/
def VOID_ELEMENTS : List String :=
  ["area", "base", "br", "col", "embed", "hr", "img", "input",
   "link", "meta", "param", "source", "track", "wbr"]

/-- `ALLOWED_ELEMENTS` from the renderer (lines 71-88): the allowlist of
safe HTML elements. -/
def ALLOWED_ELEMENTS : List String :=
  ["div", "span", "section", "article", "header", "footer", "main", "aside", "nav",
   "h1", "h2", "h3", "h4", "h5", "h6",
   "p", "a", "strong", "em", "small", "mark", "del", "ins", "sub", "sup", "br", "hr",
   "ul", "ol", "li", "dl", "dt", "dd",
   "form", "input", "textarea", "select", "option", "optgroup", "button", "label",
   "fieldset", "legend",
   "table", "thead", "tbody", "tfoot", "tr", "th", "td", "caption", "colgroup", "col",
   "img", "figure", "figcaption", "picture", "video", "audio", "source", "track",
   "blockquote", "pre", "code", "address", "time", "progress", "meter", "details",
   "summary"]

/-- `String.prototype.toLowerCase`, modelled on the underlying character
list (ASCII case mapping, which covers every tag name involved). -/
def jsToLower (s : String) : String := String.mk (s.data.map Char.toLower)

/-- `String.prototype.trim`: strip whitespace from both ends of the
string, modelled on the underlying character list. -/
def jsTrim (s : String) : String :=
  String.mk (((s.data.dropWhile Char.isWhitespace).reverse.dropWhile
    Char.isWhitespace).reverse)

/-- `element.toLowerCase().trim()` (renderer line 91). -/
def normalizeTag (element : String) : String := jsTrim (jsToLower element)

/-- `sanitizeElement` (renderer lines 90-100): lowercase and trim the tag,
keep it when allowlisted, otherwise fall back to `div`. -/
def sanitizeElement (element : String) : String :=
  let normalized := normalizeTag element
  if ALLOWED_ELEMENTS.contains normalized then normalized
  else "div"

/-- Whether `sanitizeElement` emits its `console.warn` diagnostic for this
tag (the fallback branch, renderer line 98). -/
def sanitizeWarns (element : String) : Bool :=
  !(ALLOWED_ELEMENTS.contains (normalizeTag element))

/-- `Array.prototype.join(' ')` on the filtered class list. -/
def joinSpace : List String → String
  | [] => ""
  | [a] => a
  | a :: rest => a ++ " " ++ joinSpace rest

/-- The class computation of `renderElement` (renderer lines 24-26):
`[rootClasses, className].filter(Boolean).join(' ') || undefined`.
`none` models JavaScript `undefined`; the empty string and `undefined` are
both falsy and get filtered out, and an empty join collapses to
`undefined`. -/
def combinedClassName (isRoot : Bool) (className : Option String) : Option String :=
  let rootClasses := if isRoot then "w-full h-full" else ""
  let parts := [rootClasses, className.getD ""].filter (fun s => !(s == ""))
  let joined := joinSpace parts
  if joined == "" then none else some joined

/-- The `props` entries forwarded to `createElement`: the object literal
`{...props, className: combinedClassName, key}` lets the explicit
`className` and `key` fields override any author entries of those names,
which we keep as separate fields of `RNode`. -/
def renderProps (props : List (String × PropValue)) : List (String × PropValue) :=
  props.filter (fun p => !(p.1 == "className") && !(p.1 == "key"))

/-- A display node: the result of `createElement` as observable output.
`text` models a string child; `elem` records the sanitized tag, the
computed `className`, the `key`, the forwarded props and the rendered
children. -/
inductive RNode where
  | text (s : String)
  | elem (tag : String) (className : Option String) (key : Option Nat)
         (props : List (String × PropValue)) (children : List RNode)
deriving Repr

/-- Tag of a display node (`""` for a text child). -/
def RNode.tag : RNode → String
  | .text _ => ""
  | .elem t _ _ _ _ => t

/-- `className` of a display node. -/
def RNode.classNameOf : RNode → Option String
  | .text _ => none
  | .elem _ c _ _ _ => c

/-- Rendered children of a display node. -/
def RNode.childrenOf : RNode → List RNode
  | .text _ => []
  | .elem _ _ _ _ cs => cs

mutual

/-- `renderElement(node, key?, isRoot)` from the renderer (lines 18-68):
sanitizes the tag, computes the class string (forcing `w-full h-full` on
the root), returns a childless element for void tags, and otherwise emits
the truthy `content` string followed by the recursively rendered
children (each keyed by its index). -/
def renderElement (node : GeneratedComponent) (key : Option Nat)
    (isRoot : Bool) : RNode :=
  match node with
  | ⟨element, className, props, content, children⟩ =>
    let sanitized := sanitizeElement element
    let cn := combinedClassName isRoot className
    if VOID_ELEMENTS.contains sanitized then
      .elem sanitized cn key (renderProps props) []
    else
      let contentNodes : List RNode :=
        match content with
        | some c => if c == "" then [] else [.text c]
        | none => []
      .elem sanitized cn key (renderProps props)
        (contentNodes ++ renderChildList children 0)

termination_by structural node

/-- The `children.forEach((child, index) => renderElement(child, index))`
loop of the renderer, keying each child by its index. -/
def renderChildList (cs : List GeneratedComponent) (i : Nat) : List RNode :=
  match cs with
  | [] => []
  | c :: rest => renderElement c (some i) false :: renderChildList rest (i + 1)
termination_by structural cs

end

/-- `DynamicComponent` (renderer lines 14-16): renders the tree root with
`isRoot = true` and no key. -/
def DynamicComponent (component : GeneratedComponent) : RNode :=
  renderElement component none true

mutual

/-- Two trees agree everywhere except that corresponding tags may differ
in letter case or surrounding whitespace (equal after
`toLowerCase().trim()`). -/
def sameUpToTag : GeneratedComponent → GeneratedComponent → Bool
  | ⟨e1, cn1, ps1, ct1, ch1⟩, ⟨e2, cn2, ps2, ct2, ch2⟩ =>
    decide (normalizeTag e1 = normalizeTag e2) && decide (cn1 = cn2) &&
      decide (ps1 = ps2) && decide (ct1 = ct2) && sameUpToTagList ch1 ch2
termination_by structural a => a

/-- Pointwise `sameUpToTag` on child lists of equal length. -/
def sameUpToTagList : List GeneratedComponent → List GeneratedComponent → Bool
  | [], [] => true
  | a :: as, b :: bs => sameUpToTag a b && sameUpToTagList as bs
  | _, _ => false
termination_by structural as => as

end


/-- `Region` from `src/domain/entities`:
`{id, bounds, prompt, component, loading, error?}`. -/
structure Region where
  id : String
  bounds : Bounds
  prompt : String
  component : Option GeneratedComponent
  loading : Bool
  error : Option String
deriving Repr

/-- The state owned by `useRegions` in `src/App.tsx`: the committed region
list and the single pending region. -/
structure StoreState where
  regions : List Region
  pending : Option Region
deriving Repr

/-- Initial state of `useRegions`: `useState<Region[]>([])` and
`useState<Region | null>(null)`. -/
def initState : StoreState := { regions := [], pending := none }

/-- Outcome of an awaited Gateway call: the resolved component, or the
error message extracted in the `catch` block. -/
inductive GenResult where
  | ok (c : GeneratedComponent)
  | err (msg : String)
deriving Repr

/-- The continuation run when `generateComponent` resolves successfully
(`handlePromptSubmit`, `App.tsx` lines 100-106): id-keyed map setting the
component and clearing `loading`. -/
def applyGenerationSuccess (regions : List Region) (regionId : String)
    (component : GeneratedComponent) : List Region :=
  regions.map fun r =>
    if r.id == regionId then { r with component := some component, loading := false }
    else r

/-- The continuation run when `generateComponent` rejects
(`handlePromptSubmit`, `App.tsx` lines 110-116): id-keyed map clearing
`loading` and recording the error message. -/
def applyGenerationFailure (regions : List Region) (regionId : String)
    (errorMessage : String) : List Region :=
  regions.map fun r =>
    if r.id == regionId then { r with loading := false, error := some errorMessage }
    else r

/-- The synchronous phase of `handlePromptSubmit` (`App.tsx` lines 77-90):
an early return when no pending region exists; otherwise the pending slot
is cleared and a region built from the pending bounds, the supplied
`regionId` and prompt is appended with `loading := true`.  The returned
flag records whether a generation request was fired. -/
def handlePromptSubmitSync (pending : Option Region) (regions : List Region)
    (regionId prompt : String) : StoreState × Bool :=
  match pending with
  | none => ({ regions := regions, pending := none }, false)
  | some p =>
    ({ regions := regions ++
        [{ id := regionId, bounds := p.bounds, prompt := prompt,
           component := none, loading := true, error := none }]
       pending := none }, true)

/-- `handleRegionDelete` (`App.tsx` lines 121-128): clear the pending slot
when its id matches, otherwise filter the committed list. -/
def handleRegionDelete (s : StoreState) (regionId : String) : StoreState :=
  match s.pending with
  | some p =>
    if p.id == regionId then { s with pending := none }
    else { s with regions := s.regions.filter (fun r => !(r.id == regionId)) }
  | none => { s with regions := s.regions.filter (fun r => !(r.id == regionId)) }

/-- `handleRegionResize` (`App.tsx` lines 131-137): id-keyed bounds
replacement. -/
def handleRegionResize (regions : List Region) (regionId : String)
    (newBounds : Bounds) : List Region :=
  regions.map fun r => if r.id == regionId then { r with bounds := newBounds } else r

/-- `handleComponentUpdate` (`App.tsx` lines 140-146): id-keyed direct
component replacement. -/
def handleComponentUpdate (regions : List Region) (regionId : String)
    (newComponent : GeneratedComponent) : List Region :=
  regions.map fun r =>
    if r.id == regionId then { r with component := some newComponent } else r

/-- The synchronous phase of `handleRefine` (`App.tsx` lines 149-157):
no-op unless a region with the id exists and has a component; otherwise
sets `loading := true` and clears `error` on the matching region.  The
flag records whether a refine request was fired. -/
def handleRefineStart (regions : List Region) (regionId : String) :
    List Region × Bool :=
  match regions.find? (fun r => r.id == regionId) with
  | some r =>
    if r.component.isSome then
      (regions.map fun q =>
        if q.id == regionId then { q with loading := true, error := none } else q, true)
    else (regions, false)
  | none => (regions, false)

/-- The continuation run when `refineComponent` resolves
(`App.tsx` lines 162-168): id-keyed component replacement, clearing
`loading`. -/
def applyRefineSuccess (regions : List Region) (regionId : String)
    (refined : GeneratedComponent) : List Region :=
  regions.map fun r =>
    if r.id == regionId then { r with component := some refined, loading := false }
    else r

/-- The continuation run when `refineComponent` rejects
(`App.tsx` lines 172-178): id-keyed map clearing `loading` and recording
the error message. -/
def applyRefineFailure (regions : List Region) (regionId : String)
    (errorMessage : String) : List Region :=
  regions.map fun r =>
    if r.id == regionId then { r with loading := false, error := some errorMessage }
    else r

/-- `handleSelectionComplete` (`App.tsx` lines 65-74): a fresh pending
region with the drawn bounds, empty prompt, no component, not loading. -/
def handleSelectionComplete (s : StoreState) (newId : String) (b : Bounds) :
    StoreState :=
  let newRegion : Region :=
    { id := newId, bounds := b, prompt := "", component := none,
      loading := false, error := none }
  { s with pending := some newRegion }

/-- `handleClearAll` (`App.tsx` lines 183-186). -/
def handleClearAll (_ : StoreState) : StoreState :=
  { regions := [], pending := none }

/-- One event processed by the store: the synchronous phase of a handler,
or the resumption of an awaited Gateway call.  Resolutions are separate
events because the source applies them by id-keyed lookup whenever the
promise settles. -/
inductive StoreEvent where
  | selectionComplete (newId : String) (b : Bounds)
  | promptSubmit (regionId prompt : String)
  | generationResolve (regionId : String) (res : GenResult)
  | refineStart (regionId : String)
  | refineResolve (regionId : String) (res : GenResult)
  | deleteRegion (regionId : String)
  | resizeRegion (regionId : String) (b : Bounds)
  | updateComponent (regionId : String) (c : GeneratedComponent)
  | clearAll
deriving Repr

/-- The store transition function: dispatches a `StoreEvent` to the
corresponding handler from `App.tsx`. -/
def storeStep (s : StoreState) : StoreEvent → StoreState
  | .selectionComplete newId b => handleSelectionComplete s newId b
  | .promptSubmit rid prompt => (handlePromptSubmitSync s.pending s.regions rid prompt).1
  | .generationResolve rid (.ok c) =>
      { s with regions := applyGenerationSuccess s.regions rid c }
  | .generationResolve rid (.err m) =>
      { s with regions := applyGenerationFailure s.regions rid m }
  | .refineStart rid => { s with regions := (handleRefineStart s.regions rid).1 }
  | .refineResolve rid (.ok c) =>
      { s with regions := applyRefineSuccess s.regions rid c }
  | .refineResolve rid (.err m) =>
      { s with regions := applyRefineFailure s.regions rid m }
  | .deleteRegion rid => handleRegionDelete s rid
  | .resizeRegion rid b => { s with regions := handleRegionResize s.regions rid b }
  | .updateComponent rid c => { s with regions := handleComponentUpdate s.regions rid c }
  | .clearAll => handleClearAll s

/-- Run a sequence of store events from a state. -/
def runEvents (s : StoreState) : List StoreEvent → StoreState
  | [] => s
  | e :: es => runEvents (storeStep s e) es

/-- A primitive JSON value, as `JSON.parse` can produce for the `element`
field of a manually edited payload. -/
inductive JPrim where
  | jstr (s : String)
  | jnum (n : Int)
  | jbool (b : Bool)
  | jnull
deriving DecidableEq, Repr

/-- The parsed payload of the manual-edit buffer as `handleSaveEdit`
(`RegionOverlay.tsx` lines 118-131) sees it: the `element` field may be
missing or hold a non-string value, the remaining fields are those of
`GeneratedComponent`. -/
structure ParsedEdit where
  element : Option JPrim
  className : Option String
  props : List (String × PropValue)
  content : Option String
  children : List GeneratedComponent
deriving Repr

/-- The validation guard of `handleSaveEdit` (line 122):
`!parsed.element || typeof parsed.element !== 'string'` rejects a missing
field, every falsy value (including the empty string) and every
non-string value; only a non-empty string passes. -/
def editPayloadValid : Option JPrim → Bool
  | some (.jstr s) => !(s == "")
  | _ => false

/-- The error message thrown by the validation guard (line 123). -/
def editValidationMessage : String := "Missing or invalid \"element\" field"

/-- The `Region` invariant of the data model: `loading` and `error` are
mutually exclusive. -/
def RegionInv (r : Region) : Prop := r.loading = true → r.error = none

/-- `handleSaveEdit` (`RegionOverlay.tsx` lines 118-131) composed with
`handleComponentUpdate` (`App.tsx` lines 140-146): on a valid payload the
parsed object is stored via the id-keyed update and edit mode closes with
no error; on an invalid payload the thrown message is caught and surfaced
as `editError` and `onComponentUpdate` is never invoked, so the committed
list is untouched. -/
def handleSaveEdit (parsed : ParsedEdit) (regions : List Region)
    (regionId : String) : List Region × Option String :=
  match parsed.element with
  | some (.jstr s) =>
    if s == "" then (regions, some editValidationMessage)
    else
      (handleComponentUpdate regions regionId
        ⟨s, parsed.className, parsed.props, parsed.content, parsed.children⟩, none)
  | _ => (regions, some editValidationMessage)

/-- C1 counterexample: the claim quantifies over *any* start bounds, but
the engine only clamps the axes a handle touches.  Handle `e` with start
bounds `10 × 10` and zero delta leaves the untouched height at `10`, below
`MIN_SIZE`, so the claimed guarantee is false at this concrete input. -/
theorem resize_engine_min_size_counterexample :
    (handleMouseMove .e ⟨0, 0, 10, 10⟩ 0 0).height < MIN_SIZE := by decide

/-- C1 (amended): for every handle, every start bounds already satisfying
the `Bounds` invariant `width, height ≥ MIN_SIZE` (which all committed
bounds satisfy), and every pointer delta — however large the shrinking
delta — the candidate bounds computed by the resize engine satisfy
`width ≥ MIN_SIZE` and `height ≥ MIN_SIZE`. -/
theorem resize_engine_min_size_of_valid_start (handle : ResizeHandle)
    (sb : Bounds) (dx dy : Int)
    (hw : MIN_SIZE ≤ sb.width) (hh : MIN_SIZE ≤ sb.height) :
    MIN_SIZE ≤ (handleMouseMove handle sb dx dy).width ∧
    MIN_SIZE ≤ (handleMouseMove handle sb dx dy).height := by
  cases handle <;>
    simp only [handleMouseMove, handleHasE, handleHasW, handleHasS, handleHasN,
      if_true, if_false, Bool.false_eq_true, ite_false, ite_true] <;>
    exact ⟨by first | exact le_max_left _ _ | exact hw,
           by first | exact le_max_left _ _ | exact hh⟩

/-- Witness for C1 (amended) at a concrete gesture: handle `sw`, start
bounds `100 × 80`, a large shrinking delta. -/
theorem resize_engine_min_size_witness :
    MIN_SIZE ≤ (handleMouseMove .sw ⟨20, 30, 100, 80⟩ 500 (-500)).width ∧
    MIN_SIZE ≤ (handleMouseMove .sw ⟨20, 30, 100, 80⟩ 500 (-500)).height :=
  resize_engine_min_size_of_valid_start .sw ⟨20, 30, 100, 80⟩ 500 (-500)
    (by decide) (by decide)

/-- C2: for the `w` handle, every start bounds and every delta: the right
edge `x + width` stays exactly at `startX + startWidth`, and whenever the
shrink delta exceeds `startWidth - MIN_SIZE` the resulting width is
exactly `MIN_SIZE`. -/
theorem resize_w_right_edge_fixed_and_clamped (sb : Bounds) (dx dy : Int) :
    (handleMouseMove .w sb dx dy).x + (handleMouseMove .w sb dx dy).width
      = sb.x + sb.width ∧
    (sb.width - MIN_SIZE < dx → (handleMouseMove .w sb dx dy).width = MIN_SIZE) := by
  simp only [handleMouseMove, handleHasE, handleHasW, handleHasS, handleHasN,
    Bool.false_eq_true, ite_false, ite_true]
  constructor
  · ring
  · intro h
    simp only [MIN_SIZE] at *
    omega

/-- Witness for C2: start width 100, shrink delta 70 exceeds
`100 - MIN_SIZE`; width clamps at 50 and the right edge stays at 110. -/
theorem resize_w_right_edge_witness :
    (handleMouseMove .w ⟨10, 10, 100, 100⟩ 70 0).x +
        (handleMouseMove .w ⟨10, 10, 100, 100⟩ 70 0).width = 10 + 100 ∧
    (handleMouseMove .w ⟨10, 10, 100, 100⟩ 70 0).width = MIN_SIZE :=
  ⟨(resize_w_right_edge_fixed_and_clamped ⟨10, 10, 100, 100⟩ 70 0).1,
   (resize_w_right_edge_fixed_and_clamped ⟨10, 10, 100, 100⟩ 70 0).2 (by decide)⟩

/-- C3: the selection rectangle is `x = min(ox, cx)`, `y = min(oy, cy)`,
`width = |cx-ox|`, `height = |cy-oy|`; release commits a region exactly
when both dimensions reach `MIN_SELECTION_SIZE`; in particular a drag with
`width = 49` and `height = 200` commits nothing. -/
theorem selection_drag_commit_spec (sx sy cx cy : Int) :
    ((selectionRect sx sy cx cy).x = min sx cx ∧
     (selectionRect sx sy cx cy).y = min sy cy ∧
     (selectionRect sx sy cx cy).width = |cx - sx| ∧
     (selectionRect sx sy cx cy).height = |cy - sy|) ∧
    (∀ b, handleMouseUp sx sy cx cy = some b ↔
       (b = selectionRect sx sy cx cy ∧
        MIN_SELECTION_SIZE ≤ b.width ∧ MIN_SELECTION_SIZE ≤ b.height)) ∧
    (|cx - sx| = 49 → |cy - sy| = 200 → handleMouseUp sx sy cx cy = none) := by
  refine ⟨⟨rfl, rfl, rfl, rfl⟩, ?_, ?_⟩
  · intro b
    simp only [handleMouseUp]
    split
    next h =>
      constructor
      · intro hb
        cases hb
        exact ⟨rfl, h.1, h.2⟩
      · rintro ⟨rfl, _, _⟩
        rfl
    next h =>
      constructor
      · intro hb
        cases hb
      · rintro ⟨rfl, h1, h2⟩
        exact absurd ⟨h1, h2⟩ h
  · intro h49 _
    simp only [handleMouseUp, selectionRect, MIN_SELECTION_SIZE, h49]
    norm_num

/-- Witness for C3 at the concrete sub-threshold drag `(0,0) → (49,200)`
and the concrete committable drag `(0,0) → (50,200)`. -/
theorem selection_drag_commit_witness :
    handleMouseUp 0 0 49 200 = none ∧
    handleMouseUp 0 0 50 200 = some ⟨0, 0, 50, 200⟩ :=
  ⟨(selection_drag_commit_spec 0 0 49 200).2.2 (by decide) (by decide),
   ((selection_drag_commit_spec 0 0 50 200).2.1 ⟨0, 0, 50, 200⟩).mpr
     ⟨by decide, by decide, by decide⟩⟩

theorem append_ne_empty_left (s t : String) (hs : s ≠ "") : s ++ t ≠ "" := by
  intro h
  have hd : s.data ++ t.data = [] := by
    have hc := congrArg String.data h
    simpa [String.data_append] using hc
  exact hs (String.ext (List.append_eq_nil.mp hd).1)

theorem combinedClassName_root_none :
    combinedClassName true none = some "w-full h-full" := rfl

theorem combinedClassName_root_some (c : String) (hc : c ≠ "") :
    combinedClassName true (some c) = some ("w-full h-full " ++ c) := by
  have hbeq : (c == "") = false := beq_eq_false_iff_ne.mpr hc
  have hne : ("w-full h-full " ++ c) ≠ "" :=
    append_ne_empty_left "w-full h-full " c (by decide)
  simp [combinedClassName, joinSpace, hbeq, hne]

theorem combinedClassName_nonroot_none :
    combinedClassName false none = none := rfl

theorem combinedClassName_nonroot_some (c : String) (hc : c ≠ "") :
    combinedClassName false (some c) = some c := by
  have hbeq : (c == "") = false := beq_eq_false_iff_ne.mpr hc
  simp [combinedClassName, joinSpace, hbeq]

theorem renderElement_eq (e : String) (cn : Option String)
    (ps : List (String × PropValue)) (ct : Option String)
    (ch : List GeneratedComponent) (key : Option Nat) (isRoot : Bool) :
    renderElement ⟨e, cn, ps, ct, ch⟩ key isRoot =
      if VOID_ELEMENTS.contains (sanitizeElement e) then
        .elem (sanitizeElement e) (combinedClassName isRoot cn) key (renderProps ps) []
      else
        .elem (sanitizeElement e) (combinedClassName isRoot cn) key (renderProps ps)
          ((match ct with
            | some c => if c == "" then [] else [RNode.text c]
            | none => []) ++ renderChildList ch 0) := rfl

theorem renderElement_tag (e : String) (cn : Option String)
    (ps : List (String × PropValue)) (ct : Option String)
    (ch : List GeneratedComponent) (key : Option Nat) (isRoot : Bool) :
    (renderElement ⟨e, cn, ps, ct, ch⟩ key isRoot).tag = sanitizeElement e := by
  rw [renderElement_eq]
  split <;> rfl

theorem renderElement_classNameOf (e : String) (cn : Option String)
    (ps : List (String × PropValue)) (ct : Option String)
    (ch : List GeneratedComponent) (key : Option Nat) (isRoot : Bool) :
    (renderElement ⟨e, cn, ps, ct, ch⟩ key isRoot).classNameOf =
      combinedClassName isRoot cn := by
  rw [renderElement_eq]
  split <;> rfl

/-- C4: a tree whose root `element` is not allowlisted renders to a `div`
root with the non-fatal diagnostic emitted; the root carries the forced
`w-full h-full` styling merged with (not replacing) any author
`className`; non-root nodes receive the author styling unmodified. -/
theorem render_unknown_root_fallback (node : GeneratedComponent)
    (hna : ALLOWED_ELEMENTS.contains (normalizeTag node.element) = false) :
    (renderElement node none true).tag = "div" ∧
    sanitizeWarns node.element = true ∧
    (node.className = none →
      (renderElement node none true).classNameOf = some "w-full h-full") ∧
    (∀ c, node.className = some c → c ≠ "" →
      (renderElement node none true).classNameOf = some ("w-full h-full " ++ c)) ∧
    (∀ (m : GeneratedComponent) (k : Nat), m.className = none →
      (renderElement m (some k) false).classNameOf = none) ∧
    (∀ (m : GeneratedComponent) (k : Nat) (c : String), m.className = some c →
      c ≠ "" → (renderElement m (some k) false).classNameOf = some c) := by
  obtain ⟨e, cn, ps, ct, ch⟩ := node
  simp only [GeneratedComponent.element] at hna
  have hsan : sanitizeElement e = "div" := by
    simp only [sanitizeElement]
    rw [hna]
    rfl
  refine ⟨?_, ?_, ?_, ?_, ?_, ?_⟩
  · rw [renderElement_tag, hsan]
  · simp only [sanitizeWarns, GeneratedComponent.element]
    rw [hna]
    rfl
  · intro h
    simp only [GeneratedComponent.className] at h
    subst h
    rw [renderElement_classNameOf]
    exact combinedClassName_root_none
  · intro c h hc
    simp only [GeneratedComponent.className] at h
    subst h
    rw [renderElement_classNameOf]
    exact combinedClassName_root_some c hc
  · intro m k h
    obtain ⟨e2, cn2, ps2, ct2, ch2⟩ := m
    simp only [GeneratedComponent.className] at h
    subst h
    rw [renderElement_classNameOf]
    exact combinedClassName_nonroot_none
  · intro m k c h hc
    obtain ⟨e2, cn2, ps2, ct2, ch2⟩ := m
    simp only [GeneratedComponent.className] at h
    subst h
    rw [renderElement_classNameOf]
    exact combinedClassName_nonroot_some c hc

/-- Witness for C4: the unrecognized root tag `"Widget"` with author class
`"x"` renders as a `div` carrying `w-full h-full x`, and a non-root node
keeps its author class. -/
theorem render_unknown_root_fallback_witness :
    (renderElement ⟨"Widget", some "x", [], none, []⟩ none true).tag = "div" ∧
    (renderElement ⟨"Widget", some "x", [], none, []⟩ none true).classNameOf =
      some ("w-full h-full " ++ "x") ∧
    (renderElement ⟨"p", some "y", [], none, []⟩ (some 0) false).classNameOf =
      some "y" :=
  ⟨(render_unknown_root_fallback ⟨"Widget", some "x", [], none, []⟩ (by decide)).1,
   (render_unknown_root_fallback ⟨"Widget", some "x", [], none, []⟩ (by decide)).2.2.2.1
      "x" rfl (by decide),
   (render_unknown_root_fallback ⟨"Widget", some "x", [], none, []⟩ (by decide)).2.2.2.2.2
      ⟨"p", some "y", [], none, []⟩ 0 "y" rfl (by decide)⟩

/-- C5: a node whose sanitized element is a void tag renders to the bare
element with an empty child list, whatever `content` and `children` the
source node supplies: the output does not depend on those fields at all. -/
theorem render_void_tag_no_children (node : GeneratedComponent)
    (key : Option Nat) (isRoot : Bool)
    (hv : VOID_ELEMENTS.contains (sanitizeElement node.element) = true) :
    renderElement node key isRoot =
      RNode.elem (sanitizeElement node.element)
        (combinedClassName isRoot node.className) key
        (renderProps node.props) [] := by
  obtain ⟨e, cn, ps, ct, ch⟩ := node
  simp only [GeneratedComponent.element] at hv
  rw [renderElement_eq, if_pos hv]
  rfl

/-- Witness for C5: a `br` node with non-empty `content` and a non-empty
`children` list renders to a childless `br`. -/
theorem render_void_tag_no_children_witness :
    renderElement ⟨"br", none, [], some "hi", [⟨"p", none, [], none, []⟩]⟩
        none true =
      RNode.elem "br" (some "w-full h-full") none [] [] :=
  render_void_tag_no_children
    ⟨"br", none, [], some "hi", [⟨"p", none, [], none, []⟩]⟩ none true (by decide)

theorem sanitizeElement_congr {e1 e2 : String}
    (h : normalizeTag e1 = normalizeTag e2) :
    sanitizeElement e1 = sanitizeElement e2 := by
  simp only [sanitizeElement, h]

mutual

theorem sameUpToTag_render : ∀ (a b : GeneratedComponent) (key : Option Nat)
    (isRoot : Bool), sameUpToTag a b = true →
    renderElement a key isRoot = renderElement b key isRoot
  | ⟨e1, cn1, ps1, ct1, ch1⟩, ⟨e2, cn2, ps2, ct2, ch2⟩, key, isRoot, h => by
    simp only [sameUpToTag, Bool.and_eq_true, decide_eq_true_eq] at h
    obtain ⟨⟨⟨⟨he, hcn⟩, hps⟩, hct⟩, hch⟩ := h
    subst hcn
    subst hps
    subst hct
    rw [renderElement_eq, renderElement_eq, sanitizeElement_congr he,
      sameUpToTagList_render ch1 ch2 0 hch]

theorem sameUpToTagList_render : ∀ (as bs : List GeneratedComponent) (i : Nat),
    sameUpToTagList as bs = true → renderChildList as i = renderChildList bs i
  | [], [], _, _ => rfl
  | [], _ :: _, _, h => by simp [sameUpToTagList] at h
  | _ :: _, [], _, h => by simp [sameUpToTagList] at h
  | a :: as, b :: bs, i, h => by
    simp only [sameUpToTagList, Bool.and_eq_true] at h
    show renderElement a (some i) false :: renderChildList as (i + 1) =
      renderElement b (some i) false :: renderChildList bs (i + 1)
    rw [sameUpToTag_render a b (some i) false h.1,
      sameUpToTagList_render as bs (i + 1) h.2]

end

/-- C10: allowlist matching is case-insensitive and whitespace-tolerant:
whenever the lowercased, trimmed form of an element string is allowlisted,
`sanitizeElement` returns that normalized tag (not the `div` fallback);
consequently two trees that differ only in tag casing or surrounding
whitespace render to the same output. -/
theorem allowlist_case_insensitive :
    (∀ e, ALLOWED_ELEMENTS.contains (normalizeTag e) = true →
      sanitizeElement e = normalizeTag e) ∧
    (∀ (a b : GeneratedComponent) (key : Option Nat) (isRoot : Bool),
      sameUpToTag a b = true →
      renderElement a key isRoot = renderElement b key isRoot) :=
  ⟨fun e he => by
      simp only [sanitizeElement]
      rw [he]
      rfl,
   sameUpToTag_render⟩

/-- Witness for C10: `" HEADER "` normalizes into the allowlist, and the
tree tagged `" HEADER "` renders identically to the one tagged
`"header"`. -/
theorem allowlist_case_insensitive_witness :
    sanitizeElement " HEADER " = normalizeTag " HEADER " ∧
    renderElement ⟨" HEADER ", some "x", [], some "t", []⟩ none true =
      renderElement ⟨"header", some "x", [], some "t", []⟩ none true :=
  ⟨allowlist_case_insensitive.1 " HEADER " (by decide),
   allowlist_case_insensitive.2 ⟨" HEADER ", some "x", [], some "t", []⟩
     ⟨"header", some "x", [], some "t", []⟩ none true (by decide)⟩

theorem mem_delete_filter_ne (l : List Region) (rid : String) :
    ∀ r ∈ l.filter (fun r => !(r.id == rid)), r.id ≠ rid := by
  intro r hr
  have h := (List.mem_filter.mp hr).2
  simpa using h

theorem map_keyed_update_id (l : List Region) (rid : String)
    (f : Region → Region) (h : ∀ r ∈ l, r.id ≠ rid) :
    (l.map fun r => if r.id == rid then f r else r) = l := by
  induction l with
  | nil => rfl
  | cons a t ih =>
    have ha : (a.id == rid) = false :=
      beq_eq_false_iff_ne.mpr (h a (List.mem_cons_self a t))
    simp only [List.map_cons, ha, Bool.false_eq_true, if_false, List.cons.injEq,
      true_and]
    exact ih fun r hr => h r (List.mem_cons_of_mem a hr)

theorem handleRegionDelete_pending_miss (s : StoreState) (rid : String)
    (hp : ∀ p, s.pending = some p → p.id ≠ rid) :
    handleRegionDelete s rid =
      { s with regions := s.regions.filter (fun r => !(r.id == rid)) } := by
  unfold handleRegionDelete
  cases hs : s.pending with
  | none => rfl
  | some p =>
    have : (p.id == rid) = false := beq_eq_false_iff_ne.mpr (hp p hs)
    simp [this]

/-- C6: deleting a region and then having its outstanding generation
request resolve — successfully or not — leaves the store unchanged: the
id-keyed application over a list without that id is the identity, no
region with the id is recreated, and no other region is mutated. -/
theorem delete_discards_late_resolution (s : StoreState) (rid : String)
    (c : GeneratedComponent) (msg : String)
    (hp : ∀ p, s.pending = some p → p.id ≠ rid) :
    storeStep (handleRegionDelete s rid) (.generationResolve rid (.ok c)) =
      handleRegionDelete s rid ∧
    storeStep (handleRegionDelete s rid) (.generationResolve rid (.err msg)) =
      handleRegionDelete s rid ∧
    (∀ r ∈ (storeStep (handleRegionDelete s rid)
        (.generationResolve rid (.ok c))).regions, r.id ≠ rid) := by
  have hd := handleRegionDelete_pending_miss s rid hp
  have hmem : ∀ r ∈ (handleRegionDelete s rid).regions, r.id ≠ rid := by
    rw [hd]
    exact mem_delete_filter_ne s.regions rid
  have hsucc :
      storeStep (handleRegionDelete s rid) (.generationResolve rid (.ok c)) =
        handleRegionDelete s rid := by
    show ({ handleRegionDelete s rid with
      regions := applyGenerationSuccess (handleRegionDelete s rid).regions rid c }
        : StoreState) = handleRegionDelete s rid
    rw [applyGenerationSuccess, map_keyed_update_id _ _ _ hmem]
  refine ⟨hsucc, ?_, ?_⟩
  · show ({ handleRegionDelete s rid with
      regions := applyGenerationFailure (handleRegionDelete s rid).regions rid msg }
        : StoreState) = handleRegionDelete s rid
    rw [applyGenerationFailure, map_keyed_update_id _ _ _ hmem]
  · rw [hsucc]
    exact hmem

/-- Witness for C6: delete region `"A"` from a one-region store with no
pending region; a late success and a late failure both leave the store
unchanged. -/
theorem delete_discards_late_resolution_witness :
    (storeStep
        (handleRegionDelete ⟨[⟨"A", ⟨0, 0, 100, 100⟩, "p", none, true, none⟩], none⟩ "A")
        (.generationResolve "A" (.ok ⟨"div", none, [], none, []⟩)) =
      handleRegionDelete ⟨[⟨"A", ⟨0, 0, 100, 100⟩, "p", none, true, none⟩], none⟩ "A") ∧
    (storeStep
        (handleRegionDelete ⟨[⟨"A", ⟨0, 0, 100, 100⟩, "p", none, true, none⟩], none⟩ "A")
        (.generationResolve "A" (.err "boom")) =
      handleRegionDelete ⟨[⟨"A", ⟨0, 0, 100, 100⟩, "p", none, true, none⟩], none⟩ "A") :=
  ⟨(delete_discards_late_resolution
      ⟨[⟨"A", ⟨0, 0, 100, 100⟩, "p", none, true, none⟩], none⟩ "A"
      ⟨"div", none, [], none, []⟩ "boom" (fun _ h => Option.noConfusion h)).1,
   (delete_discards_late_resolution
      ⟨[⟨"A", ⟨0, 0, 100, 100⟩, "p", none, true, none⟩], none⟩ "A"
      ⟨"div", none, [], none, []⟩ "boom" (fun _ h => Option.noConfusion h)).2.1⟩

/-- C7 counterexample: with a pending region of id `"A"`, submitting a
prompt under id `"B"` — a state in which no pending region matches the
given id — does *not* fail as a no-op: the code never compares ids, so it
appends a region under `"B"`, clears the pending slot and fires
generation, contradicting the claimed `InvalidState` rejection. -/
theorem confirm_prompt_mismatch_counterexample :
    (("A" : String) ≠ "B") ∧
    ((handlePromptSubmitSync
        (some ⟨"A", ⟨0, 0, 100, 100⟩, "", none, false, none⟩) [] "B" "hello").1.regions
      ≠ []) ∧
    ((handlePromptSubmitSync
        (some ⟨"A", ⟨0, 0, 100, 100⟩, "", none, false, none⟩) [] "B" "hello").2
      = true) := by
  refine ⟨by decide, ?_, rfl⟩
  simp [handlePromptSubmitSync]

/-- C7 (amended): `handlePromptSubmit` checks only that *some* pending
region exists, never that its id matches.  With no pending region it
silently no-ops (no `InvalidState` error, no append, no generation); with
any pending region it commits under the supplied `regionId` — even a
mismatched one — appending a loading region built from the pending bounds
and firing generation. -/
theorem confirm_prompt_behavior (regions : List Region) (rid prompt : String) :
    (handlePromptSubmitSync none regions rid prompt =
      ({ regions := regions, pending := none }, false)) ∧
    (∀ p : Region, handlePromptSubmitSync (some p) regions rid prompt =
      ({ regions := regions ++
          [{ id := rid, bounds := p.bounds, prompt := prompt,
             component := none, loading := true, error := none }],
         pending := none }, true)) :=
  ⟨rfl, fun _ => rfl⟩

/-- C8: a manual edit whose parsed payload lacks a non-empty string
`element` field is rejected: the committed list is returned untouched and
the validation message is surfaced as the edit error. -/
theorem manual_edit_invalid_payload_rejected (parsed : ParsedEdit)
    (regions : List Region) (rid : String)
    (h : editPayloadValid parsed.element = false) :
    handleSaveEdit parsed regions rid = (regions, some editValidationMessage) := by
  cases hel : parsed.element with
  | none => simp [handleSaveEdit, hel]
  | some v =>
    cases v with
    | jstr s =>
      have hs : s = "" := by simpa [editPayloadValid, hel] using h
      subst hs
      simp [handleSaveEdit, hel]
    | jnum n => simp [handleSaveEdit, hel]
    | jbool b => simp [handleSaveEdit, hel]
    | jnull => simp [handleSaveEdit, hel]

/-- Witness for C8: the payload `{"className": "x"}` (no `element` field)
against a store holding one region with a component: nothing is mutated
and the validation message surfaces. -/
theorem manual_edit_invalid_payload_rejected_witness :
    handleSaveEdit ⟨none, some "x", [], none, []⟩
        [⟨"A", ⟨0, 0, 100, 100⟩, "p", some ⟨"div", none, [], none, []⟩, false, none⟩]
        "A" =
      ([⟨"A", ⟨0, 0, 100, 100⟩, "p", some ⟨"div", none, [], none, []⟩, false, none⟩],
       some editValidationMessage) :=
  manual_edit_invalid_payload_rejected ⟨none, some "x", [], none, []⟩
    [⟨"A", ⟨0, 0, 100, 100⟩, "p", some ⟨"div", none, [], none, []⟩, false, none⟩]
    "A" rfl

theorem regionInv_of_mem_map_keyed (l : List Region) (rid : String)
    (f : Region → Region)
    (hf : ∀ a, RegionInv a → RegionInv (f a))
    (hl : ∀ r ∈ l, RegionInv r) :
    ∀ r ∈ l.map (fun r => if r.id == rid then f r else r), RegionInv r := by
  intro r hr
  obtain ⟨a, ha, rfl⟩ := List.mem_map.mp hr
  by_cases hid : (a.id == rid) = true
  · simp only [hid, if_true]
    exact hf a (hl a ha)
  · simp only [hid, if_false]
    exact hl a ha

theorem storeStep_preserves_regionInv (s : StoreState) (e : StoreEvent)
    (hs : ∀ r ∈ s.regions, RegionInv r) :
    ∀ r ∈ (storeStep s e).regions, RegionInv r := by
  cases e with
  | selectionComplete newId b => exact hs
  | promptSubmit rid prompt =>
    show ∀ r ∈ (handlePromptSubmitSync s.pending s.regions rid prompt).1.regions,
      RegionInv r
    cases s.pending with
    | none => exact hs
    | some p =>
      intro r hr
      rcases List.mem_append.mp hr with hl | hnew
      · exact hs r hl
      · rcases List.mem_singleton.mp hnew with rfl
        exact fun _ => rfl
  | generationResolve rid res =>
    cases res with
    | ok c =>
      exact regionInv_of_mem_map_keyed s.regions rid _
        (fun a _ => by intro h; cases h) hs
    | err m =>
      exact regionInv_of_mem_map_keyed s.regions rid _
        (fun a _ => by intro h; cases h) hs
  | refineStart rid =>
    show ∀ r ∈ (handleRefineStart s.regions rid).1, RegionInv r
    unfold handleRefineStart
    cases s.regions.find? (fun r => r.id == rid) with
    | none => exact hs
    | some q =>
      by_cases hq : q.component.isSome
      · simp only [hq, if_true]
        exact regionInv_of_mem_map_keyed s.regions rid _
          (fun a _ => fun _ => rfl) hs
      · simp only [hq, Bool.false_eq_true, if_false]
        exact hs
  | refineResolve rid res =>
    cases res with
    | ok c =>
      exact regionInv_of_mem_map_keyed s.regions rid _
        (fun a _ => by intro h; cases h) hs
    | err m =>
      exact regionInv_of_mem_map_keyed s.regions rid _
        (fun a _ => by intro h; cases h) hs
  | deleteRegion rid =>
    show ∀ r ∈ (handleRegionDelete s rid).regions, RegionInv r
    unfold handleRegionDelete
    cases s.pending with
    | none => exact fun r hr => hs r (List.mem_of_mem_filter hr)
    | some p =>
      by_cases hp : (p.id == rid) = true
      · simp only [hp, if_true]
        exact hs
      · simp only [hp, if_false]
        exact fun r hr => hs r (List.mem_of_mem_filter hr)
  | resizeRegion rid b =>
    exact regionInv_of_mem_map_keyed s.regions rid _
      (fun a hinv => by
        intro h
        exact hinv h) hs
  | updateComponent rid c =>
    exact regionInv_of_mem_map_keyed s.regions rid _
      (fun a hinv => by
        intro h
        exact hinv h) hs
  | clearAll => intro r hr; cases hr

theorem runEvents_preserves_regionInv (es : List StoreEvent) (s : StoreState)
    (hs : ∀ r ∈ s.regions, RegionInv r) :
    ∀ r ∈ (runEvents s es).regions, RegionInv r := by
  induction es generalizing s with
  | nil => exact hs
  | cons e t ih => exact ih (storeStep s e) (storeStep_preserves_regionInv s e hs)

theorem resolve_success_sets_component (l : List Region) (rid : String)
    (c : GeneratedComponent) (r : Region)
    (hr : r ∈ l.map (fun x => if x.id == rid then
      { x with component := some c, loading := false } else x))
    (hid : r.id = rid) : r.component = some c := by
  obtain ⟨a, ha, rfl⟩ := List.mem_map.mp hr
  by_cases h : (a.id == rid) = true
  · simp only [h, if_true]
  · simp only [h, Bool.false_eq_true, if_false] at hid ⊢
    rw [Bool.not_eq_true] at h
    exact absurd hid (beq_eq_false_iff_ne.mp h)

theorem exists_mem_map_keyed (l : List Region) (rid : String)
    (f : Region → Region) (hfid : ∀ a, (f a).id = a.id)
    (hfc : ∀ a, a.component ≠ none → (f a).component ≠ none)
    (r : Region) (hr : r ∈ l) (hc : r.component ≠ none) :
    ∃ q ∈ l.map (fun x => if x.id == rid then f x else x),
      q.id = r.id ∧ q.component ≠ none := by
  refine ⟨if (r.id == rid) = true then f r else r,
    List.mem_map_of_mem _ hr, ?_, ?_⟩
  · by_cases h : (r.id == rid) = true
    · rw [if_pos h]
      exact hfid r
    · rw [if_neg h]
  · by_cases h : (r.id == rid) = true
    · rw [if_pos h]
      exact hfc r hc
    · rw [if_neg h]
      exact hc

theorem step_preserves_nonnull_component (s : StoreState) (e : StoreEvent)
    (r : Region) (hr : r ∈ s.regions) (hc : r.component ≠ none) :
    (∃ q ∈ (storeStep s e).regions, q.id = r.id ∧ q.component ≠ none) ∨
    e = .deleteRegion r.id ∨ e = .clearAll := by
  cases e with
  | selectionComplete newId b => exact Or.inl ⟨r, hr, rfl, hc⟩
  | promptSubmit rid prompt =>
    left
    show ∃ q ∈ (handlePromptSubmitSync s.pending s.regions rid prompt).1.regions,
      q.id = r.id ∧ q.component ≠ none
    cases s.pending with
    | none => exact ⟨r, hr, rfl, hc⟩
    | some p => exact ⟨r, List.mem_append_left _ hr, rfl, hc⟩
  | generationResolve rid res =>
    left
    cases res with
    | ok c =>
      exact exists_mem_map_keyed s.regions rid
        (fun x => { x with component := some c, loading := false })
        (fun a => rfl) (fun a _ => by simp) r hr hc
    | err m =>
      exact exists_mem_map_keyed s.regions rid
        (fun x => { x with loading := false, error := some m })
        (fun a => rfl) (fun a hac => hac) r hr hc
  | refineStart rid =>
    left
    show ∃ q ∈ (handleRefineStart s.regions rid).1, q.id = r.id ∧ q.component ≠ none
    unfold handleRefineStart
    cases s.regions.find? (fun x => x.id == rid) with
    | none => exact ⟨r, hr, rfl, hc⟩
    | some q0 =>
      by_cases hq : q0.component.isSome
      · simp only [hq, if_true]
        exact exists_mem_map_keyed s.regions rid
          (fun x => { x with loading := true, error := none })
          (fun a => rfl) (fun a hac => hac) r hr hc
      · simp only [hq, Bool.false_eq_true, if_false]
        exact ⟨r, hr, rfl, hc⟩
  | refineResolve rid res =>
    left
    cases res with
    | ok c =>
      exact exists_mem_map_keyed s.regions rid
        (fun x => { x with component := some c, loading := false })
        (fun a => rfl) (fun a _ => by simp) r hr hc
    | err m =>
      exact exists_mem_map_keyed s.regions rid
        (fun x => { x with loading := false, error := some m })
        (fun a => rfl) (fun a hac => hac) r hr hc
  | deleteRegion rid =>
    show (∃ q ∈ (handleRegionDelete s rid).regions, q.id = r.id ∧ q.component ≠ none) ∨
      StoreEvent.deleteRegion rid = StoreEvent.deleteRegion r.id ∨
      StoreEvent.deleteRegion rid = StoreEvent.clearAll
    unfold handleRegionDelete
    by_cases hid : (r.id == rid) = true
    · right
      left
      rw [beq_iff_eq.mp hid]
    · left
      have hmem : r ∈ s.regions.filter (fun x => !(x.id == rid)) :=
        List.mem_filter.mpr ⟨hr, by simp [hid]⟩
      cases s.pending with
      | none => exact ⟨r, hmem, rfl, hc⟩
      | some p =>
        by_cases hp : (p.id == rid) = true
        · simp only [hp, if_true]
          exact ⟨r, hr, rfl, hc⟩
        · simp only [hp, if_false]
          exact ⟨r, hmem, rfl, hc⟩
  | resizeRegion rid b =>
    left
    exact exists_mem_map_keyed s.regions rid
      (fun x => { x with bounds := b })
      (fun a => rfl) (fun a hac => hac) r hr hc
  | updateComponent rid c =>
    left
    exact exists_mem_map_keyed s.regions rid
      (fun x => { x with component := some c })
      (fun a => rfl) (fun a _ => by simp) r hr hc
  | clearAll => exact Or.inr (Or.inr rfl)

/-- C9: in every state reachable by the store operations, no region has
`loading = true` and a set `error` simultaneously; and a region's
`component` is `null` only while no generation has yet succeeded for it:
a resolved generation or refinement success always leaves the target
region with a non-null component, and no store operation ever takes a
region's component from non-null back to null (short of deleting the
region or clearing the store). -/
theorem region_store_invariants :
    (∀ (es : List StoreEvent) (r : Region),
       r ∈ (runEvents initState es).regions → r.loading = true → r.error = none) ∧
    (∀ (s : StoreState) (rid : String) (c : GeneratedComponent) (r : Region),
       r ∈ (storeStep s (.generationResolve rid (.ok c))).regions → r.id = rid →
       r.component = some c) ∧
    (∀ (s : StoreState) (rid : String) (c : GeneratedComponent) (r : Region),
       r ∈ (storeStep s (.refineResolve rid (.ok c))).regions → r.id = rid →
       r.component = some c) ∧
    (∀ (s : StoreState) (e : StoreEvent) (r : Region),
       r ∈ s.regions → r.component ≠ none →
       (∃ q ∈ (storeStep s e).regions, q.id = r.id ∧ q.component ≠ none) ∨
       e = .deleteRegion r.id ∨ e = .clearAll) :=
  ⟨fun es r hr =>
     runEvents_preserves_regionInv es initState
       (fun q hq => absurd hq (List.not_mem_nil q)) r hr,
   fun s rid c r hr hid => resolve_success_sets_component s.regions rid c r hr hid,
   fun s rid c r hr hid => resolve_success_sets_component s.regions rid c r hr hid,
   step_preserves_nonnull_component⟩

/-- Witness for C9 at concrete inputs: the region committed by a concrete
selection-then-confirm trace is loading with no error; a concrete resolved
generation success holds the delivered component; and a concrete resize
step keeps a non-null component non-null. -/
theorem region_store_invariants_witness :
    (({ id := "A", bounds := ⟨0, 0, 300, 40⟩, prompt := "navbar",
        component := none, loading := true, error := none } : Region).error
      = none) ∧
    (({ id := "B", bounds := ⟨0, 0, 100, 100⟩, prompt := "p",
        component := some ⟨"div", none, [], none, []⟩, loading := false,
        error := none } : Region).component = some ⟨"div", none, [], none, []⟩) ∧
    ((∃ q ∈ (storeStep
        ⟨[⟨"C", ⟨0, 0, 60, 60⟩, "p", some ⟨"span", none, [], none, []⟩,
           false, none⟩], none⟩
        (.resizeRegion "C" ⟨5, 5, 80, 80⟩)).regions,
        q.id = "C" ∧ q.component ≠ none) ∨
      StoreEvent.resizeRegion "C" ⟨5, 5, 80, 80⟩ = .deleteRegion "C" ∨
      StoreEvent.resizeRegion "C" ⟨5, 5, 80, 80⟩ = .clearAll) := by
  refine ⟨?_, ?_, ?_⟩
  · exact region_store_invariants.1
      [.selectionComplete "A" ⟨0, 0, 300, 40⟩, .promptSubmit "A" "navbar"]
      ⟨"A", ⟨0, 0, 300, 40⟩, "navbar", none, true, none⟩
      (by exact List.Mem.head _) rfl
  · exact region_store_invariants.2.1
      ⟨[⟨"B", ⟨0, 0, 100, 100⟩, "p", none, true, none⟩], none⟩ "B"
      ⟨"div", none, [], none, []⟩
      ⟨"B", ⟨0, 0, 100, 100⟩, "p", some ⟨"div", none, [], none, []⟩, false, none⟩
      (by exact List.Mem.head _) rfl
  · exact region_store_invariants.2.2.2
      ⟨[⟨"C", ⟨0, 0, 60, 60⟩, "p", some ⟨"span", none, [], none, []⟩,
         false, none⟩], none⟩
      (.resizeRegion "C" ⟨5, 5, 80, 80⟩)
      ⟨"C", ⟨0, 0, 60, 60⟩, "p", some ⟨"span", none, [], none, []⟩, false, none⟩
      (List.Mem.head _) (by simp)
